import Mathlib

/-!
Shallow embedding of `pkg/model/pb/rule.go` from polaris-go: the rule
document aggregate (`ServiceRuleInProto`), its construction
(`NewServiceRuleInProto`), validation (`ValidateAndBuildCache`) and the
matcher-cache build algorithm (`buildCacheFromMatcher`).

Conventions of the embedding:
- Go `nil` pointers/interfaces become `Option`; a Go nil-interface method
  call (a panic) is a `none` result of the embedded operation.
- The external regex engine (`github.com/dlclark/regexp2`) is outside the
  repository; its `Compile` is a parameter `compile : String → Except String Regexp`
  of every operation that compiles, and a compiled matcher is modelled as a
  value carrying its source text (compilation is deterministic in the text).
- Go map iteration (`for _, v := range metadata`) is iteration over a list
  of the map's values in some order; theorems quantify over the list.
-/

namespace PolarisPb

/-- `namingpb.MatchString_Type` (proto enum): EXACT = 0, REGEX = 1. -/
inductive MatchStringType where
  | EXACT
  | REGEX
deriving DecidableEq, Repr

/-- `namingpb.MatchString_ValueType` (proto enum): TEXT = 0, PARAMETER = 1, VARIABLE = 2. -/
inductive MatchStringValueType where
  | TEXT
  | PARAMETER
  | VARIABLE
deriving DecidableEq, Repr

/-- `namingpb.MatchString`: a match-specification record. `value` models
`GetValue().GetValue()` on the wrapped string (a nil wrapper reads as `""`). -/
structure MatchString where
  type : MatchStringType
  valueType : MatchStringValueType
  value : String
deriving DecidableEq, Repr

/-- A compiled matcher produced by the external engine, identified by the
pattern text it was compiled from (`regexp2.Compile` is deterministic). -/
structure Regexp where
  pattern : String
deriving DecidableEq, Repr

/-- Modelled from the spec: `model.RuleCache` (its Go file is not under
`src/`) — the pattern matcher cache, a mapping from pattern source text to
a compiled matcher; `PutRegexMatcher` inserts, `GetRegexMatcher` looks up. -/
abbrev RuleCache := List (String × Regexp)

/-- Modelled from the spec: `model.NewRuleCache()` — a freshly created empty cache. -/
def NewRuleCache : RuleCache := []

/-- Modelled from the spec: non-mutating lookup by pattern text. -/
def RuleCache.GetRegexMatcher : RuleCache → String → Option Regexp
  | [], _ => none
  | (k, r) :: rest, s => if k = s then some r else RuleCache.GetRegexMatcher rest s

/-- Modelled from the spec: insert a compiled matcher for a pattern text
(the caller in `rule.go` only inserts after a failed lookup). -/
def RuleCache.PutRegexMatcher (c : RuleCache) (s : String) (r : Regexp) : RuleCache :=
  (s, r) :: c

/-- `const MatchAll = "*"` -/
def MatchAll : String := "*"

/-- `buildCacheFromMatcher` from `rule.go`, iterating the metadata map's
values in list order and threading the mutable `ruleCache`. Returns the Go
function's `error` result together with the cache as mutated so far. -/
def buildCacheFromMatcher (compile : String → Except String Regexp) :
    List MatchString → RuleCache → Except String Unit × RuleCache
  | [], ruleCache => (Except.ok (), ruleCache)
  | metaValue :: rest, ruleCache =>
    let valueRawStr := metaValue.value
    if valueRawStr = MatchAll then
      buildCacheFromMatcher compile rest ruleCache
    else if metaValue.valueType = MatchStringValueType.VARIABLE ∧ valueRawStr = "" then
      (Except.error "value of variable type can not be empty", ruleCache)
    else if metaValue.type ≠ MatchStringType.REGEX ∨ metaValue.valueType ≠ MatchStringValueType.TEXT then
      buildCacheFromMatcher compile rest ruleCache
    else
      match ruleCache.GetRegexMatcher valueRawStr with
      | some _ => buildCacheFromMatcher compile rest ruleCache
      | none =>
        match compile valueRawStr with
        | Except.error e =>
          (Except.error ("invalid regex expression " ++ valueRawStr ++ ", error is " ++ e), ruleCache)
        | Except.ok regexValue =>
          buildCacheFromMatcher compile rest (ruleCache.PutRegexMatcher valueRawStr regexValue)

/-- `model.ServiceKey`: identity of the owning service. -/
structure ServiceKey where
  Namespace : String
  Service : String
deriving DecidableEq, Repr

/-- `model.EventType` (its Go file is not under `src/`): the rule kinds;
`eventTypeToAssistant` in `rule.go` has entries only for `EventRouting` and
`EventRateLimiting`. Other kinds carried by a discover response are
collapsed into `EventInstances`/`EventUnknown`. -/
inductive EventType where
  | EventUnknown
  | EventInstances
  | EventRouting
  | EventRateLimiting
deriving DecidableEq, Repr

/-- `namingpb.DiscoverResponse_Type` (proto enum), restricted to the tags the
embedding distinguishes. -/
inductive DiscoverResponseType where
  | UNKNOWN
  | INSTANCE
  | ROUTING
  | RATE_LIMIT
deriving DecidableEq, Repr

/-- Modelled from the spec: `GetEventType` (its Go file is not under `src/`)
maps a response's kind tag to the governing rule kind; kinds other than
routing and rate-limiting map to event types with no assistant. -/
def GetEventType : DiscoverResponseType → EventType
  | DiscoverResponseType.ROUTING => EventType.EventRouting
  | DiscoverResponseType.RATE_LIMIT => EventType.EventRateLimiting
  | DiscoverResponseType.INSTANCE => EventType.EventInstances
  | DiscoverResponseType.UNKNOWN => EventType.EventUnknown

/-- Modelled from the spec: the rule payload (`proto.Message`), reduced to
what validation inspects — the list of pattern-bearing metadata maps
embedded in the rule, each a list of match-specifications. -/
abbrev RuleValue := List (List MatchString)

/-- `namingpb.DiscoverResponse`: the raw source document — a kind tag, the
service identity (`resp.Service.Namespace/Name`, unwrapped strings), and the
serialized payload with its revision, already in extracted form. -/
structure DiscoverResponse where
  respType : DiscoverResponseType
  Namespace : String
  Name : String
  ruleValue : RuleValue
  revision : String
deriving DecidableEq, Repr

/-- `ServiceRuleAssistant`: the kind-specific strategy interface of
`rule.go`, as a record of functions. `Validate` threads the mutable cache. -/
structure ServiceRuleAssistant where
  ParseRuleValue : DiscoverResponse → RuleValue × String
  SetDefault : RuleValue → RuleValue
  Validate : RuleValue → RuleCache → Except String Unit × RuleCache

/-- Modelled from the spec: the kind-specific `Validate` walks every
pattern-bearing field of the payload and builds the matcher cache for each
metadata map via `buildCacheFromMatcher`, returning the first error. -/
def validateRuleValue (compile : String → Except String Regexp) :
    RuleValue → RuleCache → Except String Unit × RuleCache
  | [], ruleCache => (Except.ok (), ruleCache)
  | metadata :: rest, ruleCache =>
    match buildCacheFromMatcher compile metadata ruleCache with
    | (Except.ok (), c1) => validateRuleValue compile rest c1
    | (Except.error e, c1) => (Except.error e, c1)

/-- Modelled from the spec: `RoutingAssistant` (its Go file is not under
`src/`) — extraction returns the payload and revision carried by the raw
document; defaults are idempotent (identity on the modelled payload);
validation compiles the payload's patterns into the cache. -/
def RoutingAssistant (compile : String → Except String Regexp) : ServiceRuleAssistant where
  ParseRuleValue resp := (resp.ruleValue, resp.revision)
  SetDefault ruleValue := ruleValue
  Validate := validateRuleValue compile

/-- Modelled from the spec: `RateLimitingAssistant` (its Go file is not
under `src/`) — same capability set over the modelled payload. -/
def RateLimitingAssistant (compile : String → Except String Regexp) : ServiceRuleAssistant where
  ParseRuleValue resp := (resp.ruleValue, resp.revision)
  SetDefault ruleValue := ruleValue
  Validate := validateRuleValue compile

/-- `eventTypeToAssistant`: the dispatch table of `rule.go`. A Go map lookup
miss yields the interface zero value `nil`, here `none`. -/
def eventTypeToAssistant (compile : String → Except String Regexp) :
    EventType → Option ServiceRuleAssistant
  | EventType.EventRouting => some (RoutingAssistant compile)
  | EventType.EventRateLimiting => some (RateLimitingAssistant compile)
  | _ => none

/-- `ServiceRuleInProto`: the rule document aggregate of `rule.go`.
`serviceKey` is the embedded `*model.ServiceKey` (nil when absent);
`assistant` is the interface field (nil when never assigned);
`validateError` is the validation-error slot (`error`, nil as `none`). -/
structure ServiceRuleInProto where
  serviceKey : Option ServiceKey
  initialized : Bool
  revision : String
  ruleValue : RuleValue
  ruleCache : RuleCache
  eventType : EventType
  assistant : Option ServiceRuleAssistant
  CacheLoaded : Int
  validateError : Option String

/-- `NewServiceRuleInProto` from `rule.go`: `&ServiceRuleInProto{}` zero
value; on a nil response only `initialized = false` is set; otherwise the
service key, kind, assistant, extracted payload/revision and a fresh cache
are filled in. A dispatch-table miss leaves `assistant` nil and the
immediate `assistant.ParseRuleValue(resp)` call panics: result `none`. -/
def NewServiceRuleInProto (compile : String → Except String Regexp)
    (resp : Option DiscoverResponse) : Option ServiceRuleInProto :=
  match resp with
  | none =>
    some { serviceKey := none, initialized := false, revision := "", ruleValue := [],
           ruleCache := [], eventType := EventType.EventUnknown, assistant := none,
           CacheLoaded := 0, validateError := none }
  | some r =>
    match eventTypeToAssistant compile (GetEventType r.respType) with
    | none => none
    | some a =>
      some { serviceKey := some { Namespace := r.Namespace, Service := r.Name },
             initialized := true,
             revision := (a.ParseRuleValue r).2,
             ruleValue := (a.ParseRuleValue r).1,
             ruleCache := NewRuleCache,
             eventType := GetEventType r.respType,
             assistant := some a,
             CacheLoaded := 0,
             validateError := none }

/-- `IsCacheLoaded` from `rule.go`. -/
def ServiceRuleInProto.IsCacheLoaded (s : ServiceRuleInProto) : Bool :=
  s.CacheLoaded > 0

/-- `ValidateAndBuildCache` from `rule.go`: apply defaults, validate into
the cache; on failure record the error in `validateError` and return it; on
success return nil leaving `validateError` as it was. A nil `assistant`
(uninitialized document) panics on the interface method call: `none`. -/
def ServiceRuleInProto.ValidateAndBuildCache (s : ServiceRuleInProto) :
    Option (Except String Unit × ServiceRuleInProto) :=
  match s.assistant with
  | none => none
  | some a =>
    let rv := a.SetDefault s.ruleValue
    match a.Validate rv s.ruleCache with
    | (Except.error e, c) =>
      some (Except.error e, { s with ruleValue := rv, ruleCache := c, validateError := some e })
    | (Except.ok (), c) =>
      some (Except.ok (), { s with ruleValue := rv, ruleCache := c })

/-- `GetNamespace` from `rule.go`: `s.Namespace` through the embedded key if
initialized, else `""` (every initialized document carries a service key). -/
def ServiceRuleInProto.GetNamespace (s : ServiceRuleInProto) : String :=
  if s.initialized then
    match s.serviceKey with
    | some k => k.Namespace
    | none => ""
  else ""

/-- `GetService` from `rule.go`. -/
def ServiceRuleInProto.GetService (s : ServiceRuleInProto) : String :=
  if s.initialized then
    match s.serviceKey with
    | some k => k.Service
    | none => ""
  else ""

/-- `GetValue` from `rule.go`. -/
def ServiceRuleInProto.GetValue (s : ServiceRuleInProto) : RuleValue :=
  s.ruleValue

/-- `GetType` from `rule.go`. -/
def ServiceRuleInProto.GetType (s : ServiceRuleInProto) : EventType :=
  s.eventType

/-- `IsInitialized` from `rule.go`. -/
def ServiceRuleInProto.IsInitialized (s : ServiceRuleInProto) : Bool :=
  s.initialized

/-- `GetRevision` from `rule.go`. -/
def ServiceRuleInProto.GetRevision (s : ServiceRuleInProto) : String :=
  s.revision

/-- `GetRuleCache` from `rule.go`. -/
def ServiceRuleInProto.GetRuleCache (s : ServiceRuleInProto) : RuleCache :=
  s.ruleCache

/-- `GetValidateError` from `rule.go`. -/
def ServiceRuleInProto.GetValidateError (s : ServiceRuleInProto) : Option String :=
  s.validateError

/-- A compile function that accepts every pattern (used to instantiate
theorems at concrete inputs). -/
def compileOk : String → Except String Regexp :=
  fun s => Except.ok { pattern := s }

/-- A compile function that rejects exactly the pattern `"(unclosed"`. -/
def compileReject : String → Except String Regexp :=
  fun s => if s = "(unclosed" then Except.error "missing closing )" else Except.ok { pattern := s }

/-- An entry that reaches the compilation branch: regex-typed, text-valued,
not the wildcard sentinel. -/
def needsCompile (mv : MatchString) : Prop :=
  mv.type = MatchStringType.REGEX ∧ mv.valueType = MatchStringValueType.TEXT ∧ mv.value ≠ MatchAll

instance (mv : MatchString) : Decidable (needsCompile mv) := by
  unfold needsCompile
  infer_instance

/-- A variable-typed entry with an empty value. -/
def emptyVariable (mv : MatchString) : Prop :=
  mv.valueType = MatchStringValueType.VARIABLE ∧ mv.value = ""

instance (mv : MatchString) : Decidable (emptyVariable mv) := by
  unfold emptyVariable
  infer_instance

theorem build_cons (compile : String → Except String Regexp) (mv : MatchString)
    (rest : List MatchString) (cache : RuleCache) :
    buildCacheFromMatcher compile (mv :: rest) cache =
      if mv.value = MatchAll then
        buildCacheFromMatcher compile rest cache
      else if mv.valueType = MatchStringValueType.VARIABLE ∧ mv.value = "" then
        (Except.error "value of variable type can not be empty", cache)
      else if mv.type ≠ MatchStringType.REGEX ∨ mv.valueType ≠ MatchStringValueType.TEXT then
        buildCacheFromMatcher compile rest cache
      else
        match cache.GetRegexMatcher mv.value with
        | some _ => buildCacheFromMatcher compile rest cache
        | none =>
          match compile mv.value with
          | Except.error e =>
            (Except.error ("invalid regex expression " ++ mv.value ++ ", error is " ++ e), cache)
          | Except.ok regexValue =>
            buildCacheFromMatcher compile rest (cache.PutRegexMatcher mv.value regexValue) := rfl

theorem get_put (cache : RuleCache) (s k : String) (r : Regexp) :
    (cache.PutRegexMatcher s r).GetRegexMatcher k =
      if s = k then some r else cache.GetRegexMatcher k := rfl

/-- The build only adds cache entries: any binding present before the build
is still present (same matcher) afterwards, whether or not the build fails. -/
theorem build_mono (compile : String → Except String Regexp) (m : List MatchString)
    (cache : RuleCache) (k : String) (r : Regexp)
    (h : cache.GetRegexMatcher k = some r) :
    ((buildCacheFromMatcher compile m cache).2).GetRegexMatcher k = some r := by
  induction m generalizing cache with
  | nil => exact h
  | cons mv rest ih =>
    rw [build_cons]
    by_cases h1 : mv.value = MatchAll
    · simp only [if_pos h1]
      exact ih cache h
    · simp only [if_neg h1]
      by_cases h2 : mv.valueType = MatchStringValueType.VARIABLE ∧ mv.value = ""
      · simp only [if_pos h2]
        exact h
      · simp only [if_neg h2]
        by_cases h3 : mv.type ≠ MatchStringType.REGEX ∨ mv.valueType ≠ MatchStringValueType.TEXT
        · simp only [if_pos h3]
          exact ih cache h
        · simp only [if_neg h3]
          cases hg : cache.GetRegexMatcher mv.value with
          | some p => exact ih cache h
          | none =>
            cases hc : compile mv.value with
            | error e => exact h
            | ok rv =>
              apply ih
              rw [get_put]
              have hne : mv.value ≠ k := by
                intro hkv
                rw [hkv] at hg
                rw [hg] at h
                exact Option.noConfusion h
              simp only [if_neg hne]
              exact h

/-- Processing a concatenation: process the first list; on success continue
with the second over the resulting cache, on failure stop there. -/
theorem build_append (compile : String → Except String Regexp) (m1 m2 : List MatchString)
    (cache : RuleCache) :
    buildCacheFromMatcher compile (m1 ++ m2) cache =
      match buildCacheFromMatcher compile m1 cache with
      | (Except.ok (), c1) => buildCacheFromMatcher compile m2 c1
      | (Except.error e, c1) => (Except.error e, c1) := by
  induction m1 generalizing cache with
  | nil => rfl
  | cons mv rest ih =>
    rw [List.cons_append, build_cons, build_cons]
    by_cases h1 : mv.value = MatchAll
    · simp only [if_pos h1]
      exact ih cache
    · simp only [if_neg h1]
      by_cases h2 : mv.valueType = MatchStringValueType.VARIABLE ∧ mv.value = ""
      · simp only [if_pos h2]
      · simp only [if_neg h2]
        by_cases h3 : mv.type ≠ MatchStringType.REGEX ∨ mv.valueType ≠ MatchStringValueType.TEXT
        · simp only [if_pos h3]
          exact ih cache
        · simp only [if_neg h3]
          cases hg : cache.GetRegexMatcher mv.value with
          | some p => exact ih cache
          | none =>
            cases hc : compile mv.value with
            | error e => rfl
            | ok rv => exact ih _

/-- After a successful build, every entry that reaches the compilation
branch has a matcher in the resulting cache. -/
theorem build_ok_covered (compile : String → Except String Regexp) :
    ∀ (m : List MatchString) (cache c1 : RuleCache),
      buildCacheFromMatcher compile m cache = (Except.ok (), c1) →
      ∀ mv : MatchString, mv ∈ m → needsCompile mv →
      ∃ r, c1.GetRegexMatcher mv.value = some r := by
  intro m
  induction m with
  | nil =>
    intro cache c1 hok mv hmem hnc
    cases hmem
  | cons hd rest ih =>
    intro cache c1 hok mv hmem hnc
    rw [build_cons] at hok
    by_cases h1 : hd.value = MatchAll
    · simp only [if_pos h1] at hok
      rcases List.mem_cons.mp hmem with heq | htl
      · exact absurd (heq ▸ h1) hnc.2.2
      · exact ih cache c1 hok mv htl hnc
    · simp only [if_neg h1] at hok
      by_cases h2 : hd.valueType = MatchStringValueType.VARIABLE ∧ hd.value = ""
      · simp only [if_pos h2] at hok
        exact absurd (Prod.ext_iff.mp hok).1 (by simp)
      · simp only [if_neg h2] at hok
        by_cases h3 : hd.type ≠ MatchStringType.REGEX ∨ hd.valueType ≠ MatchStringValueType.TEXT
        · simp only [if_pos h3] at hok
          rcases List.mem_cons.mp hmem with heq | htl
          · subst heq
            rcases h3 with h3a | h3b
            · exact absurd hnc.1 h3a
            · exact absurd hnc.2.1 h3b
          · exact ih cache c1 hok mv htl hnc
        · simp only [if_neg h3] at hok
          cases hg : cache.GetRegexMatcher hd.value with
          | some p =>
            rw [hg] at hok
            rcases List.mem_cons.mp hmem with heq | htl
            · subst heq
              refine ⟨p, ?_⟩
              have hok2 : buildCacheFromMatcher compile rest cache = (Except.ok (), c1) := hok
              have hmono := build_mono compile rest cache mv.value p hg
              rw [hok2] at hmono
              exact hmono
            · exact ih cache c1 hok mv htl hnc
          | none =>
            rw [hg] at hok
            cases hc : compile hd.value with
            | error e =>
              rw [hc] at hok
              exact absurd (Prod.ext_iff.mp hok).1 (by simp)
            | ok rv =>
              rw [hc] at hok
              rcases List.mem_cons.mp hmem with heq | htl
              · subst heq
                refine ⟨rv, ?_⟩
                have hok2 : buildCacheFromMatcher compile rest (cache.PutRegexMatcher mv.value rv) = (Except.ok (), c1) := hok
                have hput : (cache.PutRegexMatcher mv.value rv).GetRegexMatcher mv.value = some rv := by
                  rw [get_put]
                  simp
                have hmono := build_mono compile rest (cache.PutRegexMatcher mv.value rv) mv.value rv hput
                rw [hok2] at hmono
                exact hmono
              · exact ih _ c1 hok mv htl hnc

/-- A metadata list containing a variable-typed entry with empty value
never builds successfully: some error is returned. -/
theorem build_emptyVariable_error (compile : String → Except String Regexp) :
    ∀ (m : List MatchString) (cache : RuleCache) (mv : MatchString), mv ∈ m →
      mv.valueType = MatchStringValueType.VARIABLE → mv.value = "" →
      ∃ e, (buildCacheFromMatcher compile m cache).1 = Except.error e := by
  intro m
  induction m with
  | nil =>
    intro cache mv hmem
    cases hmem
  | cons hd rest ih =>
    intro cache mv hmem hvar hval
    rw [build_cons]
    by_cases h1 : hd.value = MatchAll
    · simp only [if_pos h1]
      rcases List.mem_cons.mp hmem with heq | htl
      · subst heq
        rw [hval] at h1
        exact absurd h1 (by simp [MatchAll])
      · exact ih cache mv htl hvar hval
    · simp only [if_neg h1]
      by_cases h2 : hd.valueType = MatchStringValueType.VARIABLE ∧ hd.value = ""
      · simp only [if_pos h2]
        exact ⟨_, rfl⟩
      · simp only [if_neg h2]
        have htl : mv ∈ rest := by
          rcases List.mem_cons.mp hmem with heq | htl
          · subst heq
            exact absurd ⟨hvar, hval⟩ h2
          · exact htl
        by_cases h3 : hd.type ≠ MatchStringType.REGEX ∨ hd.valueType ≠ MatchStringValueType.TEXT
        · simp only [if_pos h3]
          exact ih cache mv htl hvar hval
        · simp only [if_neg h3]
          cases hg : cache.GetRegexMatcher hd.value with
          | some p => exact ih cache mv htl hvar hval
          | none =>
            cases hc : compile hd.value with
            | error e => exact ⟨_, rfl⟩
            | ok rv => exact ih _ mv htl hvar hval

/-- If no entry is an empty variable reference and every entry reaching the
compilation branch is already cached, the build is a no-op: it succeeds and
returns the cache unchanged. -/
theorem build_noop (compile : String → Except String Regexp) :
    ∀ (m : List MatchString) (cache : RuleCache),
      (∀ mv ∈ m, ¬ emptyVariable mv) →
      (∀ mv ∈ m, needsCompile mv → (cache.GetRegexMatcher mv.value).isSome) →
      buildCacheFromMatcher compile m cache = (Except.ok (), cache) := by
  intro m
  induction m with
  | nil =>
    intro cache hnov hcov
    rfl
  | cons hd rest ih =>
    intro cache hnov hcov
    rw [build_cons]
    have ihr : buildCacheFromMatcher compile rest cache = (Except.ok (), cache) :=
      ih cache (fun mv hm => hnov mv (List.mem_cons_of_mem hd hm))
        (fun mv hm hnc => hcov mv (List.mem_cons_of_mem hd hm) hnc)
    by_cases h1 : hd.value = MatchAll
    · simp only [if_pos h1]
      exact ihr
    · simp only [if_neg h1]
      have h2 : ¬ (hd.valueType = MatchStringValueType.VARIABLE ∧ hd.value = "") :=
        hnov hd (List.mem_cons_self hd rest)
      simp only [if_neg h2]
      by_cases h3 : hd.type ≠ MatchStringType.REGEX ∨ hd.valueType ≠ MatchStringValueType.TEXT
      · simp only [if_pos h3]
        exact ihr
      · simp only [if_neg h3]
        push_neg at h3
        have hnc : needsCompile hd := ⟨h3.1, h3.2, h1⟩
        have hsome := hcov hd (List.mem_cons_self hd rest) hnc
        cases hg : cache.GetRegexMatcher hd.value with
        | some p => exact ihr
        | none =>
          rw [hg] at hsome
          exact absurd hsome (by simp)

/-- A pattern text whose compilation fails is never inserted: if it is
absent from the cache before the build, it is absent afterwards, whatever
the build's outcome. -/
theorem build_fail_not_inserted (compile : String → Except String Regexp)
    (t e : String) (hc : compile t = Except.error e) :
    ∀ (m : List MatchString) (cache : RuleCache),
      cache.GetRegexMatcher t = none →
      ((buildCacheFromMatcher compile m cache).2).GetRegexMatcher t = none := by
  intro m
  induction m with
  | nil =>
    intro cache habs
    exact habs
  | cons hd rest ih =>
    intro cache habs
    rw [build_cons]
    by_cases h1 : hd.value = MatchAll
    · simp only [if_pos h1]
      exact ih cache habs
    · simp only [if_neg h1]
      by_cases h2 : hd.valueType = MatchStringValueType.VARIABLE ∧ hd.value = ""
      · simp only [if_pos h2]
        exact habs
      · simp only [if_neg h2]
        by_cases h3 : hd.type ≠ MatchStringType.REGEX ∨ hd.valueType ≠ MatchStringValueType.TEXT
        · simp only [if_pos h3]
          exact ih cache habs
        · simp only [if_neg h3]
          cases hg : cache.GetRegexMatcher hd.value with
          | some p => exact ih cache habs
          | none =>
            cases hcc : compile hd.value with
            | error e2 => exact habs
            | ok rv =>
              apply ih
              rw [get_put]
              have hne : hd.value ≠ t := by
                intro hvt
                rw [hvt, hc] at hcc
                exact Except.noConfusion hcc
              simp only [if_neg hne]
              exact habs

/-- If the metadata contains an entry that reaches the compilation branch
whose pattern fails to compile (and is not already cached), the build as a
whole returns an error. -/
theorem build_compile_fail_error (compile : String → Except String Regexp) :
    ∀ (m : List MatchString) (cache : RuleCache) (mv : MatchString) (e : String),
      mv ∈ m → needsCompile mv → compile mv.value = Except.error e →
      cache.GetRegexMatcher mv.value = none →
      ∃ e2, (buildCacheFromMatcher compile m cache).1 = Except.error e2 := by
  intro m
  induction m with
  | nil =>
    intro cache mv e hmem
    cases hmem
  | cons hd rest ih =>
    intro cache mv e hmem hnc hc habs
    rw [build_cons]
    by_cases h1 : hd.value = MatchAll
    · simp only [if_pos h1]
      rcases List.mem_cons.mp hmem with heq | htl
      · exact absurd (heq ▸ h1) hnc.2.2
      · exact ih cache mv e htl hnc hc habs
    · simp only [if_neg h1]
      by_cases h2 : hd.valueType = MatchStringValueType.VARIABLE ∧ hd.value = ""
      · simp only [if_pos h2]
        exact ⟨_, rfl⟩
      · simp only [if_neg h2]
        by_cases h3 : hd.type ≠ MatchStringType.REGEX ∨ hd.valueType ≠ MatchStringValueType.TEXT
        · simp only [if_pos h3]
          rcases List.mem_cons.mp hmem with heq | htl
          · subst heq
            rcases h3 with h3a | h3b
            · exact absurd hnc.1 h3a
            · exact absurd hnc.2.1 h3b
          · exact ih cache mv e htl hnc hc habs
        · simp only [if_neg h3]
          cases hg : cache.GetRegexMatcher hd.value with
          | some p =>
            rcases List.mem_cons.mp hmem with heq | htl
            · subst heq
              rw [hg] at habs
              exact Option.noConfusion habs
            · exact ih cache mv e htl hnc hc habs
          | none =>
            cases hcc : compile hd.value with
            | error e2 => exact ⟨_, rfl⟩
            | ok rv =>
              rcases List.mem_cons.mp hmem with heq | htl
              · subst heq
                rw [hc] at hcc
                exact Except.noConfusion hcc
              · apply ih _ mv e htl hnc hc
                rw [get_put]
                have hne : hd.value ≠ mv.value := by
                  intro hvt
                  rw [hvt, hc] at hcc
                  exact Except.noConfusion hcc
                simp only [if_neg hne]
                exact habs

/-- Every key present in the cache after a build was either present before
or is the value of a metadata entry that reaches the compilation branch
(regex-typed, text-valued, not the wildcard). -/
theorem build_cache_domain (compile : String → Except String Regexp) :
    ∀ (m : List MatchString) (cache : RuleCache) (k : String),
      (((buildCacheFromMatcher compile m cache).2).GetRegexMatcher k).isSome →
      (cache.GetRegexMatcher k).isSome ∨
        ∃ mv, mv ∈ m ∧ needsCompile mv ∧ mv.value = k := by
  intro m
  induction m with
  | nil =>
    intro cache k h
    exact Or.inl h
  | cons hd rest ih =>
    intro cache k h
    rw [build_cons] at h
    by_cases h1 : hd.value = MatchAll
    · simp only [if_pos h1] at h
      rcases ih cache k h with hin | ⟨mv, hm, hnc, hv⟩
      · exact Or.inl hin
      · exact Or.inr ⟨mv, List.mem_cons_of_mem hd hm, hnc, hv⟩
    · simp only [if_neg h1] at h
      by_cases h2 : hd.valueType = MatchStringValueType.VARIABLE ∧ hd.value = ""
      · simp only [if_pos h2] at h
        exact Or.inl h
      · simp only [if_neg h2] at h
        by_cases h3 : hd.type ≠ MatchStringType.REGEX ∨ hd.valueType ≠ MatchStringValueType.TEXT
        · simp only [if_pos h3] at h
          rcases ih cache k h with hin | ⟨mv, hm, hnc, hv⟩
          · exact Or.inl hin
          · exact Or.inr ⟨mv, List.mem_cons_of_mem hd hm, hnc, hv⟩
        · simp only [if_neg h3] at h
          push_neg at h3
          cases hg : cache.GetRegexMatcher hd.value with
          | some p =>
            rw [hg] at h
            rcases ih cache k h with hin | ⟨mv, hm, hnc, hv⟩
            · exact Or.inl hin
            · exact Or.inr ⟨mv, List.mem_cons_of_mem hd hm, hnc, hv⟩
          | none =>
            rw [hg] at h
            cases hcc : compile hd.value with
            | error e =>
              rw [hcc] at h
              exact Or.inl h
            | ok rv =>
              rw [hcc] at h
              have h' : (((buildCacheFromMatcher compile rest
                  (cache.PutRegexMatcher hd.value rv)).2).GetRegexMatcher k).isSome := h
              rcases ih _ k h' with hin | ⟨mv, hm, hnc, hv⟩
              · rw [get_put] at hin
                by_cases hk : hd.value = k
                · exact Or.inr ⟨hd, List.mem_cons_self hd rest, ⟨h3.1, h3.2, h1⟩, hk⟩
                · simp only [if_neg hk] at hin
                  exact Or.inl hin
              · exact Or.inr ⟨mv, List.mem_cons_of_mem hd hm, hnc, hv⟩

/-- The build consults the compile function only at the values of entries
that reach the compilation branch: two compile functions agreeing there
produce identical results. -/
theorem build_compile_agree (compileA compileB : String → Except String Regexp) :
    ∀ (m : List MatchString) (cache : RuleCache),
      (∀ mv ∈ m, needsCompile mv → compileA mv.value = compileB mv.value) →
      buildCacheFromMatcher compileA m cache = buildCacheFromMatcher compileB m cache := by
  intro m
  induction m with
  | nil =>
    intro cache hagree
    rfl
  | cons hd rest ih =>
    intro cache hagree
    have hrest : ∀ mv ∈ rest, needsCompile mv → compileA mv.value = compileB mv.value :=
      fun mv hm hnc => hagree mv (List.mem_cons_of_mem hd hm) hnc
    rw [build_cons, build_cons]
    by_cases h1 : hd.value = MatchAll
    · simp only [if_pos h1]
      exact ih cache hrest
    · simp only [if_neg h1]
      by_cases h2 : hd.valueType = MatchStringValueType.VARIABLE ∧ hd.value = ""
      · simp only [if_pos h2]
      · simp only [if_neg h2]
        by_cases h3 : hd.type ≠ MatchStringType.REGEX ∨ hd.valueType ≠ MatchStringValueType.TEXT
        · simp only [if_pos h3]
          exact ih cache hrest
        · simp only [if_neg h3]
          push_neg at h3
          cases hg : cache.GetRegexMatcher hd.value with
          | some p => exact ih cache hrest
          | none =>
            have heq : compileA hd.value = compileB hd.value :=
              hagree hd (List.mem_cons_self hd rest) ⟨h3.1, h3.2, h1⟩
            rw [heq]
            cases hcc : compileB hd.value with
            | error e => rfl
            | ok rv => exact ih _ hrest

/-- C1 (counterexample): constructing from an absent (nil) source yields an
uninitialized document with empty namespace and service, but the claim's
final part fails: `ValidateAndBuildCache` on that document calls
`SetDefault` on the nil `assistant` interface — a panic (`none`), not a
no-op. -/
theorem C1_uninitialized_validate_panics :
    (NewServiceRuleInProto compileOk none).map ServiceRuleInProto.IsInitialized = some false ∧
    (NewServiceRuleInProto compileOk none).map ServiceRuleInProto.GetNamespace = some "" ∧
    (NewServiceRuleInProto compileOk none).map ServiceRuleInProto.GetService = some "" ∧
    (NewServiceRuleInProto compileOk none).bind ServiceRuleInProto.ValidateAndBuildCache = none :=
  ⟨rfl, rfl, rfl, rfl⟩

/-- C1 (amended): constructing a RuleDocument from an absent source yields
`IsInitialized() == false`, `GetNamespace() == ""` and `GetService() == ""`;
a subsequent `ValidateAndBuildCache` call on that uninitialized document is
disallowed — it dereferences the nil assistant and panics rather than
no-opping. -/
theorem C1_uninitialized_accessors (compile : String → Except String Regexp) :
    (NewServiceRuleInProto compile none).map ServiceRuleInProto.IsInitialized = some false ∧
    (NewServiceRuleInProto compile none).map ServiceRuleInProto.GetNamespace = some "" ∧
    (NewServiceRuleInProto compile none).map ServiceRuleInProto.GetService = some "" ∧
    (NewServiceRuleInProto compile none).bind ServiceRuleInProto.ValidateAndBuildCache = none :=
  ⟨rfl, rfl, rfl, rfl⟩

/-- C2 (counterexample): a successful `ValidateAndBuildCache` call does not
overwrite a previously recorded validation error with nil: on a document
holding the error `"old failure"` whose payload validates cleanly, the call
returns ok yet `GetValidateError()` still reports `"old failure"`. -/
theorem C2_success_keeps_stale_error :
    (ServiceRuleInProto.ValidateAndBuildCache
        { serviceKey := some { Namespace := "ns", Service := "svc" },
          initialized := true, revision := "1", ruleValue := [],
          ruleCache := [], eventType := EventType.EventRouting,
          assistant := some (RoutingAssistant compileOk),
          CacheLoaded := 0, validateError := some "old failure" }).map
      (fun p => (p.1, p.2.GetValidateError)) =
    some (Except.ok (), some "old failure") :=
  rfl

/-- C2 (amended): after a failed `ValidateAndBuildCache` call,
`GetValidateError()` returns exactly that call's error; after a successful
call it returns whatever was recorded before — success returns nil to the
caller but never resets the stored `validateError` to nil. -/
theorem C2_validate_error_recording (s : ServiceRuleInProto)
    (r : Except String Unit) (s2 : ServiceRuleInProto)
    (h : s.ValidateAndBuildCache = some (r, s2)) :
    (∀ e, r = Except.error e → s2.GetValidateError = some e) ∧
    (r = Except.ok () → s2.GetValidateError = s.GetValidateError) := by
  unfold ServiceRuleInProto.ValidateAndBuildCache at h
  cases ha : s.assistant with
  | none =>
    rw [ha] at h
    exact Option.noConfusion h
  | some a =>
    rw [ha] at h
    simp only at h
    rcases hv : a.Validate (a.SetDefault s.ruleValue) s.ruleCache with ⟨res, c⟩
    rw [hv] at h
    cases res with
    | error e =>
      simp only [Option.some.injEq, Prod.mk.injEq] at h
      obtain ⟨h3, h4⟩ := h
      constructor
      · intro e2 he2
        rw [← h3] at he2
        have he3 := Except.error.inj he2
        rw [← h4, ← he3]
        rfl
      · intro habs
        rw [← h3] at habs
        exact Except.noConfusion habs
    | ok u =>
      cases u
      simp only [Option.some.injEq, Prod.mk.injEq] at h
      obtain ⟨h3, h4⟩ := h
      constructor
      · intro e2 he2
        rw [← h3] at he2
        exact Except.noConfusion he2
      · intro h5
        rw [← h4]
        rfl

/-- C2 witness: a document whose payload holds an empty variable reference
fails validation and afterwards reports exactly that error. -/
theorem C2_validate_error_recording_witness :
    ServiceRuleInProto.GetValidateError
      { serviceKey := some { Namespace := "ns", Service := "svc" },
        initialized := true, revision := "1",
        ruleValue := [[{ type := MatchStringType.EXACT,
                         valueType := MatchStringValueType.VARIABLE, value := "" }]],
        ruleCache := [], eventType := EventType.EventRouting,
        assistant := some (RoutingAssistant compileOk),
        CacheLoaded := 0, validateError := some "value of variable type can not be empty" } =
    some "value of variable type can not be empty" :=
  (C2_validate_error_recording
    { serviceKey := some { Namespace := "ns", Service := "svc" },
      initialized := true, revision := "1",
      ruleValue := [[{ type := MatchStringType.EXACT,
                       valueType := MatchStringValueType.VARIABLE, value := "" }]],
      ruleCache := [], eventType := EventType.EventRouting,
      assistant := some (RoutingAssistant compileOk),
      CacheLoaded := 0, validateError := none }
    (Except.error "value of variable type can not be empty")
    { serviceKey := some { Namespace := "ns", Service := "svc" },
      initialized := true, revision := "1",
      ruleValue := [[{ type := MatchStringType.EXACT,
                       valueType := MatchStringValueType.VARIABLE, value := "" }]],
      ruleCache := [], eventType := EventType.EventRouting,
      assistant := some (RoutingAssistant compileOk),
      CacheLoaded := 0, validateError := some "value of variable type can not be empty" }
    rfl).1 "value of variable type can not be empty" rfl

/-- C7 (counterexample): construction does fail loudly for a source whose
declared kind has no dispatch-table entry: an instance-kind response leaves
the assistant nil and the immediate `ParseRuleValue` call panics (`none`). -/
theorem C7_unknown_kind_construction_panics :
    NewServiceRuleInProto compileOk
      (some { respType := DiscoverResponseType.INSTANCE, Namespace := "ns",
              Name := "svc", ruleValue := [], revision := "1" }) = none :=
  rfl

/-- C7 (amended): construction never fails loudly for an absent source or
for a source whose declared kind has an entry in the dispatch table; a
dispatch-table miss is fatal (nil-assistant dereference), which the spec
itself calls a programming error. -/
theorem C7_construction_total_on_dispatched_kinds
    (compile : String → Except String Regexp) (resp : Option DiscoverResponse)
    (h : ∀ r, resp = some r →
      (eventTypeToAssistant compile (GetEventType r.respType)).isSome) :
    (NewServiceRuleInProto compile resp).isSome := by
  cases resp with
  | none => rfl
  | some r =>
    have hs := h r rfl
    cases hl : eventTypeToAssistant compile (GetEventType r.respType) with
    | none =>
      rw [hl] at hs
      exact absurd hs (by simp)
    | some a =>
      simp only [NewServiceRuleInProto, hl, Option.isSome_some]

/-- C7 witness: a routing-kind response constructs without panicking. -/
theorem C7_construction_total_witness :
    (NewServiceRuleInProto compileOk
      (some { respType := DiscoverResponseType.ROUTING, Namespace := "ns",
              Name := "svc", ruleValue := [], revision := "1" })).isSome :=
  C7_construction_total_on_dispatched_kinds compileOk
    (some { respType := DiscoverResponseType.ROUTING, Namespace := "ns",
            Name := "svc", ruleValue := [], revision := "1" })
    (fun r hr => by cases hr; rfl)

/-- C8 (counterexample): not every non-nil source yields a Constructed
document — a source whose kind has no dispatch entry yields no document at
all (nil-assistant panic during construction). -/
theorem C8_not_every_nonnil_source_constructs :
    NewServiceRuleInProto compileOk
      (some { respType := DiscoverResponseType.UNKNOWN, Namespace := "ns",
              Name := "svc", ruleValue := [], revision := "1" }) = none :=
  rfl

/-- C8 (amended): for every non-nil source whose kind is dispatched to an
assistant, `NewServiceRuleInProto` yields the Constructed state:
initialized, namespace and service from the source's service identity,
payload and revision exactly as extracted by the selected assistant, a
fresh empty matcher cache, and no validation error recorded. -/
theorem C8_constructed_state (compile : String → Except String Regexp)
    (resp : DiscoverResponse) (a : ServiceRuleAssistant)
    (h : eventTypeToAssistant compile (GetEventType resp.respType) = some a) :
    ∃ d, NewServiceRuleInProto compile (some resp) = some d ∧
      d.IsInitialized = true ∧
      d.GetNamespace = resp.Namespace ∧
      d.GetService = resp.Name ∧
      d.GetValue = (a.ParseRuleValue resp).1 ∧
      d.GetRevision = (a.ParseRuleValue resp).2 ∧
      d.GetRuleCache = NewRuleCache ∧
      d.GetType = GetEventType resp.respType ∧
      d.GetValidateError = none := by
  refine ⟨{ serviceKey := some { Namespace := resp.Namespace, Service := resp.Name },
            initialized := true, revision := (a.ParseRuleValue resp).2,
            ruleValue := (a.ParseRuleValue resp).1, ruleCache := NewRuleCache,
            eventType := GetEventType resp.respType, assistant := some a,
            CacheLoaded := 0, validateError := none },
         ?_, rfl, rfl, rfl, rfl, rfl, rfl, rfl, rfl⟩
  simp only [NewServiceRuleInProto, h]

/-- C8 witness: a concrete routing-kind response constructs into the
Constructed state with its payload, revision and an empty cache. -/
theorem C8_constructed_state_witness :
    ∃ d, NewServiceRuleInProto compileOk
        (some { respType := DiscoverResponseType.ROUTING, Namespace := "ns",
                Name := "svc",
                ruleValue := [[{ type := MatchStringType.REGEX,
                                 valueType := MatchStringValueType.TEXT,
                                 value := "^foo.*" }]],
                revision := "42" }) = some d ∧
      d.IsInitialized = true ∧
      d.GetNamespace = "ns" ∧
      d.GetService = "svc" ∧
      d.GetValue = ((RoutingAssistant compileOk).ParseRuleValue
        { respType := DiscoverResponseType.ROUTING, Namespace := "ns", Name := "svc",
          ruleValue := [[{ type := MatchStringType.REGEX,
                           valueType := MatchStringValueType.TEXT,
                           value := "^foo.*" }]],
          revision := "42" }).1 ∧
      d.GetRevision = ((RoutingAssistant compileOk).ParseRuleValue
        { respType := DiscoverResponseType.ROUTING, Namespace := "ns", Name := "svc",
          ruleValue := [[{ type := MatchStringType.REGEX,
                           valueType := MatchStringValueType.TEXT,
                           value := "^foo.*" }]],
          revision := "42" }).2 ∧
      d.GetRuleCache = NewRuleCache ∧
      d.GetType = GetEventType DiscoverResponseType.ROUTING ∧
      d.GetValidateError = none :=
  C8_constructed_state compileOk
    { respType := DiscoverResponseType.ROUTING, Namespace := "ns", Name := "svc",
      ruleValue := [[{ type := MatchStringType.REGEX,
                       valueType := MatchStringValueType.TEXT,
                       value := "^foo.*" }]],
      revision := "42" }
    (RoutingAssistant compileOk) rfl

/-- C3: any metadata entry with valueKind = Variable and value = "" makes
the build fail immediately when reached — the build as a whole returns an
error, and on a map holding just such an entry the error is exactly the
malformed-reference message, regardless of the entry's match type. -/
theorem C3_empty_variable_rejected (compile : String → Except String Regexp)
    (metadata : List MatchString) (cache : RuleCache) (mv : MatchString)
    (hmem : mv ∈ metadata) (hvar : mv.valueType = MatchStringValueType.VARIABLE)
    (hval : mv.value = "") :
    (∃ e, (buildCacheFromMatcher compile metadata cache).1 = Except.error e) ∧
    (∀ (ty : MatchStringType) (c : RuleCache),
      buildCacheFromMatcher compile
        [{ type := ty, valueType := MatchStringValueType.VARIABLE, value := "" }] c =
      (Except.error "value of variable type can not be empty", c)) := by
  constructor
  · exact build_emptyVariable_error compile metadata cache mv hmem hvar hval
  · intro ty c
    rw [build_cons]
    simp [MatchAll]

/-- C3 witness: the singleton metadata map with an exact-typed empty
variable reference fails with the malformed-reference error. -/
theorem C3_empty_variable_rejected_witness :
    buildCacheFromMatcher compileOk
      [{ type := MatchStringType.EXACT, valueType := MatchStringValueType.VARIABLE,
         value := "" }] [] =
    (Except.error "value of variable type can not be empty", []) :=
  (C3_empty_variable_rejected compileOk
    [{ type := MatchStringType.EXACT, valueType := MatchStringValueType.VARIABLE,
       value := "" }] []
    { type := MatchStringType.EXACT, valueType := MatchStringValueType.VARIABLE,
      value := "" }
    (List.mem_singleton.mpr rfl) rfl rfl).2 MatchStringType.EXACT []

/-- C4: a second run of the build over the cache a first successful run
produced is a no-op — it succeeds and returns the cache unchanged, so each
pattern text gets at most one compiled matcher and a lookup returns the
same object both times; moreover any build leaves a text it already holds
untouched (no recompilation, no replacement). -/
theorem C4_idempotent_compilation (compile : String → Except String Regexp)
    (metadata : List MatchString) (cache c1 : RuleCache)
    (hok : buildCacheFromMatcher compile metadata cache = (Except.ok (), c1)) :
    buildCacheFromMatcher compile metadata c1 = (Except.ok (), c1) ∧
    (∀ (c : RuleCache) (P : String) (r : Regexp), c.GetRegexMatcher P = some r →
      ((buildCacheFromMatcher compile metadata c).2).GetRegexMatcher P = some r) := by
  constructor
  · apply build_noop
    · intro mv hm hev
      rcases build_emptyVariable_error compile metadata cache mv hm hev.1 hev.2 with ⟨e, he⟩
      rw [hok] at he
      exact Except.noConfusion he
    · intro mv hm hnc
      rcases build_ok_covered compile metadata cache c1 hok mv hm hnc with ⟨r, hr⟩
      rw [hr]
      rfl
  · intro c P r h
    exact build_mono compile metadata c P r h

/-- C4 witness: rebuilding over the cache produced by a first build of the
pattern `"^foo.*"` leaves that cache exactly as it is. -/
theorem C4_idempotent_compilation_witness :
    buildCacheFromMatcher compileOk
      [{ type := MatchStringType.REGEX, valueType := MatchStringValueType.TEXT,
         value := "^foo.*" }]
      [("^foo.*", { pattern := "^foo.*" })] =
    (Except.ok (), [("^foo.*", { pattern := "^foo.*" })]) :=
  (C4_idempotent_compilation compileOk
    [{ type := MatchStringType.REGEX, valueType := MatchStringValueType.TEXT,
       value := "^foo.*" }]
    [] [("^foo.*", { pattern := "^foo.*" })] rfl).1

/-- C5: when a pattern text the build must compile fails to compile, the
build as a whole fails and the failing text is never inserted into the
cache; on a map holding just that entry the error is the invalid-pattern
message naming the offending text and the underlying cause. -/
theorem C5_invalid_pattern_fails_build (compile : String → Except String Regexp)
    (metadata : List MatchString) (cache : RuleCache) (mv : MatchString) (e : String)
    (hmem : mv ∈ metadata) (hty : mv.type = MatchStringType.REGEX)
    (hvt : mv.valueType = MatchStringValueType.TEXT) (hw : mv.value ≠ MatchAll)
    (hc : compile mv.value = Except.error e)
    (habs : cache.GetRegexMatcher mv.value = none) :
    (∃ e2, (buildCacheFromMatcher compile metadata cache).1 = Except.error e2) ∧
    ((buildCacheFromMatcher compile metadata cache).2).GetRegexMatcher mv.value = none ∧
    (∀ c : RuleCache, c.GetRegexMatcher mv.value = none →
      buildCacheFromMatcher compile [mv] c =
        (Except.error ("invalid regex expression " ++ mv.value ++ ", error is " ++ e), c)) := by
  refine ⟨build_compile_fail_error compile metadata cache mv e hmem ⟨hty, hvt, hw⟩ hc habs,
          build_fail_not_inserted compile mv.value e hc metadata cache habs, ?_⟩
  intro c hc0
  rw [build_cons, if_neg hw]
  have h2 : ¬ (mv.valueType = MatchStringValueType.VARIABLE ∧ mv.value = "") := by
    intro hx
    rw [hvt] at hx
    exact MatchStringValueType.noConfusion hx.1
  rw [if_neg h2]
  have h3 : ¬ (mv.type ≠ MatchStringType.REGEX ∨ mv.valueType ≠ MatchStringValueType.TEXT) := by
    intro hx
    rcases hx with hx | hx
    · exact hx hty
    · exact hx hvt
  rw [if_neg h3, hc0, hc]

/-- C5 witness: the single regex-text entry `"(unclosed"` fails the build
with the invalid-pattern error naming the text and the engine's cause. -/
theorem C5_invalid_pattern_fails_build_witness :
    buildCacheFromMatcher compileReject
      [{ type := MatchStringType.REGEX, valueType := MatchStringValueType.TEXT,
         value := "(unclosed" }] [] =
    (Except.error "invalid regex expression (unclosed, error is missing closing )", []) :=
  (C5_invalid_pattern_fails_build compileReject
    [{ type := MatchStringType.REGEX, valueType := MatchStringValueType.TEXT,
       value := "(unclosed" }]
    []
    { type := MatchStringType.REGEX, valueType := MatchStringValueType.TEXT,
      value := "(unclosed" }
    "missing closing )"
    (List.mem_singleton.mpr rfl) rfl rfl (by decide) rfl rfl).2.2 [] rfl

/-- C6: only regex-typed, text-valued, non-wildcard entries influence the
build — its result is independent of what the compile function would answer
on every other text, and every cache key present after a build either was
present before or is the value of such an entry (so a `"*"` value or an
exact-typed entry never triggers compilation and never reaches the cache). -/
theorem C6_only_regex_text_compiled
    (compileA compileB compile : String → Except String Regexp)
    (metadata : List MatchString) (cache : RuleCache) :
    ((∀ mv ∈ metadata, mv.type = MatchStringType.REGEX →
        mv.valueType = MatchStringValueType.TEXT → mv.value ≠ MatchAll →
        compileA mv.value = compileB mv.value) →
      buildCacheFromMatcher compileA metadata cache =
        buildCacheFromMatcher compileB metadata cache) ∧
    (∀ k, (((buildCacheFromMatcher compile metadata cache).2).GetRegexMatcher k).isSome →
      (cache.GetRegexMatcher k).isSome ∨
        ∃ mv, mv ∈ metadata ∧ mv.type = MatchStringType.REGEX ∧
          mv.valueType = MatchStringValueType.TEXT ∧ mv.value ≠ MatchAll ∧ mv.value = k) := by
  constructor
  · intro hagree
    apply build_compile_agree
    intro mv hm hnc
    exact hagree mv hm hnc.1 hnc.2.1 hnc.2.2
  · intro k h
    rcases build_cache_domain compile metadata cache k h with hin | ⟨mv, hm, hnc, hv⟩
    · exact Or.inl hin
    · exact Or.inr ⟨mv, hm, hnc.1, hnc.2.1, hnc.2.2, hv⟩

/-- C6 witness: over a map holding a wildcard regex entry, an exact entry
with regex metacharacters and a variable entry, a compile function that
rejects some texts and one that accepts everything build identically —
no entry of this map ever triggers compilation. -/
theorem C6_only_regex_text_compiled_witness :
    buildCacheFromMatcher compileReject
      [{ type := MatchStringType.REGEX, valueType := MatchStringValueType.TEXT,
         value := "*" },
       { type := MatchStringType.EXACT, valueType := MatchStringValueType.TEXT,
         value := "a(b" },
       { type := MatchStringType.EXACT, valueType := MatchStringValueType.VARIABLE,
         value := "x" }] [] =
    buildCacheFromMatcher compileOk
      [{ type := MatchStringType.REGEX, valueType := MatchStringValueType.TEXT,
         value := "*" },
       { type := MatchStringType.EXACT, valueType := MatchStringValueType.TEXT,
         value := "a(b" },
       { type := MatchStringType.EXACT, valueType := MatchStringValueType.VARIABLE,
         value := "x" }] [] :=
  (C6_only_regex_text_compiled compileReject compileOk compileOk
    [{ type := MatchStringType.REGEX, valueType := MatchStringValueType.TEXT,
       value := "*" },
     { type := MatchStringType.EXACT, valueType := MatchStringValueType.TEXT,
       value := "a(b" },
     { type := MatchStringType.EXACT, valueType := MatchStringValueType.VARIABLE,
       value := "x" }] []).1
    (by
      intro mv hm h1 h2 h3
      fin_cases hm <;> simp_all [MatchAll])

/-- C10: a failed build does not roll the cache back — every matcher a
successfully processed prefix of the metadata inserted is still present in
the cache the failed build leaves behind, so a failed validation can leave
the document's cache partially populated. -/
theorem C10_failed_build_keeps_partial_cache (compile : String → Except String Regexp)
    (pre suf : List MatchString) (cache c1 c2 : RuleCache) (e : String)
    (hpre : buildCacheFromMatcher compile pre cache = (Except.ok (), c1))
    (hfail : buildCacheFromMatcher compile (pre ++ suf) cache = (Except.error e, c2)) :
    ∀ (k : String) (r : Regexp), c1.GetRegexMatcher k = some r →
      c2.GetRegexMatcher k = some r := by
  intro k r hk
  have hdec : buildCacheFromMatcher compile (pre ++ suf) cache =
      buildCacheFromMatcher compile suf c1 := by
    rw [build_append, hpre]
  have hmono := build_mono compile suf c1 k r hk
  rw [← hdec, hfail] at hmono
  exact hmono

/-- C10 witness: after a build that compiles `"^foo.*"` and then fails on
`"(unclosed"`, the cache the error leaves behind still holds the matcher
for `"^foo.*"`. -/
theorem C10_failed_build_keeps_partial_cache_witness :
    RuleCache.GetRegexMatcher [("^foo.*", { pattern := "^foo.*" })] "^foo.*" =
      some { pattern := "^foo.*" } :=
  C10_failed_build_keeps_partial_cache compileReject
    [{ type := MatchStringType.REGEX, valueType := MatchStringValueType.TEXT,
       value := "^foo.*" }]
    [{ type := MatchStringType.REGEX, valueType := MatchStringValueType.TEXT,
       value := "(unclosed" }]
    [] [("^foo.*", { pattern := "^foo.*" })] [("^foo.*", { pattern := "^foo.*" })]
    "invalid regex expression (unclosed, error is missing closing )"
    rfl rfl "^foo.*" { pattern := "^foo.*" } rfl

end PolarisPb
